import Mathlib

/-!
Verification of the quota & subscription lifecycle manager of the
realagent-be backend.

The development shallowly embeds the relevant JavaScript sources:
  * `src/utils/validators.js` (the `planUtils` section appended there):
    `getUserPlanAsync`, `isInGrace`, `countPropertiesForAgent`,
    `canCreateProperty`;
  * `src/middleware/planLimit.js`: `enforcePostLimit` (the Creation Gate);
  * the property controller (`createProperty`, including the post-creation
    grace reconciler);
  * `src/services/graceCleanup.js`: `runGraceCleanup` (the Grace Sweep);
  * `src/controllers/subscriptionController.js`: `subscribe`, `cancel`;
  * the `User` model's `refreshSubscriptionStatus` /
    `refreshExpiredSubscriptions` (passive expiry).

Timestamps are modelled as `Nat` milliseconds, Mongo documents as Lean
structures, nullable / possibly-absent fields as `Option`, and the stores
(`Property` collection, Cloudinary) as explicit lists threaded through the
operations.
-/

namespace RealAgent

/-- Media item stored on a property; `publicId` is the Cloudinary handle
(absent for externally hosted URLs). -/
structure MediaItem where
  url : String
  publicId : Option String
deriving Repr, DecidableEq

/-- A property (listing) document: owner (`agent`), lifecycle `status`
(`deleted` is excluded from quota counts), `createdAt` timestamp and media. -/
structure Listing where
  id : Nat
  agent : Nat
  status : String
  createdAt : Nat
  images : List MediaItem
  videos : List MediaItem
deriving Repr, DecidableEq

/-- Subscription subdocument of the `User` model (`models/User.js`).
`Option` fields model `null`/`undefined`. -/
structure Subscription where
  plan : Option String
  status : Option String
  trialEndsAt : Option Nat
  currentPeriodStart : Option Nat
  currentPeriodEnd : Option Nat
  graceUntil : Option Nat
  cancelAtPeriodEnd : Bool
  cancelAt : Option Nat
  canceledAt : Option Nat
deriving Repr, DecidableEq

/-- The all-absent subscription object, used where the JS code reads
`user.subscription || {}`. -/
def emptySubscription : Subscription :=
  { plan := none, status := none, trialEndsAt := none, currentPeriodStart := none
    currentPeriodEnd := none, graceUntil := none, cancelAtPeriodEnd := false
    cancelAt := none, canceledAt := none }

/-- A user document (only the fields the quota manager reads). -/
structure User where
  id : Nat
  role : String
  subscription : Option Subscription
deriving Repr, DecidableEq

/-- Evaluates `user.subscription || {}`. -/
def subOf (u : User) : Subscription :=
  u.subscription.getD emptySubscription

/-- A plan configuration as resolved from the DB `Plan` collection or the
file plan table; `postLimit` may be absent (`undefined`/`null`). -/
structure PlanConfig where
  name : String
  postLimit : Option Int
deriving Repr, DecidableEq

/-- Embeds `PlanConfig.defaultPlan` of the static plan table
`config/plans.js` (its content is appended to `src/routes/properties.js`
after the document separator): `defaultPlan: 'free'`. -/
def defaultPlan : String := "free"

/-- Embeds the `plans` table of `config/plans.js` (appended to
`src/routes/properties.js`): `free`/`trial`/`pro`/`premium`/`enterprise`
with `postLimit` 5, 15, 15, 50 and -1 (the file comments -1 as
"unlimited"); an unknown name resolves to nothing. -/
def filePlans (name : String) : Option PlanConfig :=
  if name = "free" then some ⟨"free", some 5⟩
  else if name = "trial" then some ⟨"trial", some 15⟩
  else if name = "pro" then some ⟨"pro", some 15⟩
  else if name = "premium" then some ⟨"premium", some 50⟩
  else if name = "enterprise" then some ⟨"enterprise", some (-1)⟩
  else none

/-- Embeds `getPlanConfig` of `planUtils`: resolve a (possibly absent) plan
name against the file table, falling back to the default plan's entry. -/
def getPlanConfig (planName : Option String) : PlanConfig :=
  match planName with
  | none => (filePlans defaultPlan).getD ⟨defaultPlan, some 5⟩
  | some n => (filePlans n).getD ((filePlans defaultPlan).getD ⟨defaultPlan, some 5⟩)

/-- Effective plan name per `getUserPlanAsync` in `planUtils`: `trial` while
`subscription.status === 'trialing'`, else `subscription.plan` with fallback
to the default plan. -/
def effectivePlanName (u : User) : String :=
  if (subOf u).status = some "trialing" then "trial"
  else (subOf u).plan.getD defaultPlan

/-- Plan resolution (`getUserPlanAsync`): look the effective plan name up in
the registry.  The registry parameter `plans` abstracts `getPlanConfigAsync`
(DB `Plan` lookup first, falling back to `getPlanConfig` on the file table),
which always returns some config; `fun n => (filePlans n).getD
(getPlanConfig none)` is the registry of a deployment without DB plans. -/
def getUserPlanAsync (plans : String → PlanConfig) (u : User) : PlanConfig :=
  plans (effectivePlanName u)

/-- Embeds `isInGrace` of `planUtils`: true iff `graceUntil` is set and
strictly in the future. -/
def isInGrace (u : User) (now : Nat) : Bool :=
  match (subOf u).graceUntil with
  | none => false
  | some g => decide (now < g)

/-- The query predicate `{ agent: userId, status: { $ne: 'deleted' } }`
shared by `countPropertiesForAgent` and the sweep's selection of a user's
properties. -/
def activeFor (userId : Nat) (props : List Listing) : List Listing :=
  props.filter (fun p => p.agent == userId && p.status != "deleted")

/-- Embeds `countPropertiesForAgent`: count of the user's non-deleted
properties. -/
def countPropertiesForAgent (props : List Listing) (userId : Nat) : Nat :=
  (activeFor userId props).length

/-- Result shape of `canCreateProperty`:
`{ allowed, reason?, current?, limit?, inGrace? }`. -/
structure Decision where
  allowed : Bool
  reason : Option String := none
  current : Option Nat := none
  limit : Option Int := none
  inGrace : Option Bool := none
deriving Repr, DecidableEq

/-- Embeds `canCreateProperty` of `planUtils` for a resolved user document:
admin bypass, then `limit = plan.postLimit || 0`, fresh count, grace check,
and the `!inGrace && current >= limit` rejection. -/
def canCreateProperty (plans : String → PlanConfig) (props : List Listing)
    (now : Nat) (u : User) : Decision :=
  if u.role = "admin" then
    { allowed := true, reason := some "admin bypass" }
  else
    let plan := getUserPlanAsync plans u
    let limit : Int := plan.postLimit.getD 0
    let current := countPropertiesForAgent props u.id
    let inGrace := isInGrace u now
    if !inGrace && decide ((current : Int) ≥ limit) then
      { allowed := false, reason := some "post_limit_reached"
        current := some current, limit := some limit, inGrace := some false }
    else
      { allowed := true, current := some current, limit := some limit
        inGrace := some inGrace }

/-- HTTP-level outcome of the `enforcePostLimit` middleware. -/
inductive GateOutcome
  | unauthorized
  | rejected (message : String) (reason : String)
      (current : Option Nat) (limit : Option Int)
  | proceed
  | serverError
deriving Repr, DecidableEq

/-- Embeds the Creation Gate `enforcePostLimit` (`middleware/planLimit.js`).
`eval` is the (fallible) call to `canCreateProperty`; a thrown error is the
`Except.error` case and yields the 500 response. -/
def enforcePostLimit (user : Option User)
    (eval : User → Except String Decision) : GateOutcome :=
  match user with
  | none => .unauthorized
  | some u =>
    match eval u with
    | .error _ => .serverError
    | .ok r =>
      if !r.allowed then
        .rejected "Property creation limit reached for your plan"
          (r.reason.getD "limit_reached") r.current r.limit
      else .proceed

/-- The persisted stores threaded through a creation request: the property
collection and the Cloudinary store (a list of live `publicId`s). -/
structure Store where
  props : List Listing
  cloud : List String
deriving Repr, DecidableEq

/-- Embeds `cloudinary.deleteFromCloudinary`: the artifact disappears from
the external store. -/
def deleteFromCloudinary (pid : String) (cloud : List String) : List String :=
  cloud.filter (fun q => q ≠ pid)

/-- All Cloudinary `publicId`s attached to a property (images then videos),
as walked by the rollback and sweep cleanup loops. -/
def publicIds (p : Listing) : List String :=
  (p.images ++ p.videos).filterMap (fun m => m.publicId)

/-- Cleanup loop over a property's media: delete every attached `publicId`
from the external store. -/
def cloudCleanupFor (p : Listing) (cloud : List String) : List String :=
  (publicIds p).foldl (fun c pid => deleteFromCloudinary pid c) cloud

/-- HTTP-level outcome of the creation controller. -/
inductive CreateOutcome
  | created (p : Listing)
  | graceRejected (current : Int) (limit : Int)
deriving Repr, DecidableEq

/-- Embeds the tail of the property controller's `createProperty`: persist
the new document, then run the post-creation grace reconciler
(`canCreateProperty` on the updated count; roll back – Cloudinary cleanup
then `findByIdAndDelete` – iff `check.inGrace && check.current > check.limit`,
answering 403 with `current - 1`).  `checkThrows` models the re-evaluation
throwing: the controller catches that error, logs it and still answers 201. -/
def createProperty (plans : String → PlanConfig) (now : Nat) (u : User)
    (newProp : Listing) (checkThrows : Bool) (st : Store) :
    Store × CreateOutcome :=
  let st1 : Store := { st with props := newProp :: st.props }
  if checkThrows then
    (st1, .created newProp)
  else
    let check := canCreateProperty plans st1.props now u
    match check.inGrace, check.current, check.limit with
    | some true, some cur, some lim =>
      if (cur : Int) > lim then
        let cloud1 := cloudCleanupFor newProp st1.cloud
        let props1 := st1.props.filter (fun p => p.id ≠ newProp.id)
        ({ props := props1, cloud := cloud1 }, .graceRejected ((cur : Int) - 1) lim)
      else (st1, .created newProp)
    | _, _, _ => (st1, .created newProp)

/-- Selection query of the Grace Sweep:
`{ 'subscription.plan': 'free', 'subscription.graceUntil': { $lte: now } }`
(a `$lte` date comparison does not match a missing/null `graceUntil`). -/
def sweepSelects (now : Nat) (u : User) : Bool :=
  (subOf u).plan == some "free" &&
    (match (subOf u).graceUntil with
     | some g => decide (g ≤ now)
     | none => false)

/-- Clearing of the grace window inside the sweep:
`if (u.subscription && u.subscription.graceUntil) { graceUntil = null; save }`. -/
def clearGrace (u : User) : User :=
  match u.subscription with
  | none => u
  | some s =>
    if s.graceUntil.isSome then
      { u with subscription := some { s with graceUntil := none } }
    else u

/-- Newest-first comparison used by the sweep's
`.sort({ createdAt: -1 })`. -/
def newerFirst (a b : Listing) : Prop := b.createdAt ≤ a.createdAt

instance : DecidableRel newerFirst := fun a b => Nat.decLe b.createdAt a.createdAt

instance : IsTotal Listing newerFirst :=
  ⟨fun a b => Nat.le_total b.createdAt a.createdAt⟩

instance : IsTrans Listing newerFirst :=
  ⟨fun _ _ _ h1 h2 => Nat.le_trans h2 h1⟩

/-- Stable sort by `createdAt` descending (the sweep's eviction order). -/
def sortByNewest (l : List Listing) : List Listing :=
  l.insertionSort newerFirst

/-- Accumulator of the sweep's per-user loop: the property store, the
external store and the running `totalRemoved` counter. -/
structure SweepAcc where
  props : List Listing
  cloud : List String
  removed : Nat
deriving Repr, DecidableEq

/-- One iteration of the sweep's per-user loop (`runGraceCleanup` body):
count the user's live properties; if within the limit do nothing here (the
grace clearing is modelled on the user list), else select the
`count - limit` newest, clean their Cloudinary media and delete each record
by id. -/
def sweepStep (limit : Int) (acc : SweepAcc) (u : User) : SweepAcc :=
  let mine := activeFor u.id acc.props
  let count := mine.length
  if decide ((count : Int) ≤ limit) then acc
  else
    let toRemove := ((count : Int) - limit).toNat
    let extras := (sortByNewest mine).take toRemove
    let cloud1 := extras.foldl (fun c p => cloudCleanupFor p c) acc.cloud
    let props1 := acc.props.filter (fun p => !(extras.any (fun e => e.id == p.id)))
    { props := props1, cloud := cloud1, removed := acc.removed + extras.length }

/-- Whole-system state seen by the sweep. -/
structure SweepState where
  users : List User
  props : List Listing
  cloud : List String
deriving Repr, DecidableEq

/-- Return value of `runGraceCleanup`: `{ handled, removed }`. -/
structure SweepReport where
  handled : Nat
  removed : Nat
deriving Repr, DecidableEq

/-- Embeds `runGraceCleanup` (`services/graceCleanup.js`): select the users
whose plan is `free` with an elapsed grace deadline, run the trimming loop
over them in order, and clear each selected user's `graceUntil`.  `limit` is
the resolved free-plan `postLimit` (DB value, falling back to the file
config, falling back to 5). -/
def runGraceCleanup (limit : Int) (now : Nat) (st : SweepState) :
    SweepState × SweepReport :=
  let selected := st.users.filter (sweepSelects now)
  let acc := selected.foldl (sweepStep limit) ⟨st.props, st.cloud, 0⟩
  ({ users := st.users.map (fun u => if sweepSelects now u then clearGrace u else u)
     props := acc.props, cloud := acc.cloud },
   { handled := selected.length, removed := acc.removed })

/-- Per-user loop iteration with a failure oracle: `fails u.id = true` models
the per-user `try { ... } catch (userErr) { log }` body throwing, leaving the
stores untouched for that user and continuing the batch. -/
def sweepStepF (limit : Int) (fails : Nat → Bool) (acc : SweepAcc) (u : User) :
    SweepAcc :=
  if fails u.id then acc else sweepStep limit acc u

/-- `runGraceCleanup` with the failure oracle: a failing user's processing
(deletions and grace clearing) is skipped, every other selected user is
processed as usual, and `handled` still counts the whole batch. -/
def runGraceCleanupF (limit : Int) (now : Nat) (fails : Nat → Bool)
    (st : SweepState) : SweepState × SweepReport :=
  let selected := st.users.filter (sweepSelects now)
  let acc := selected.foldl (sweepStepF limit fails) ⟨st.props, st.cloud, 0⟩
  ({ users := st.users.map
       (fun u => if sweepSelects now u && !fails u.id then clearGrace u else u)
     props := acc.props, cloud := acc.cloud },
   { handled := selected.length, removed := acc.removed })

/-- Milliseconds in the 7-day grace window
(`7 * 24 * 60 * 60 * 1000`). -/
def graceMs : Nat := 7 * 24 * 60 * 60 * 1000

/-- Request body of the `subscribe` endpoint (fields the embedding needs). -/
structure SubscribeBody where
  plan : Option String
  currentPeriodStart : Option Nat
  currentPeriodEnd : Option Nat
  trialEndsAt : Option Nat
deriving Repr, DecidableEq

/-- Embeds `subscriptionController.subscribe`: build a fresh subscription
object (plan defaulting to `basic`, period/trial fields falling back to the
previous subscription), status `trialing` iff `trialEndsAt` is in the
future, and `graceUntil` never set (the new object carries none; for a paid
plan it is explicitly nulled). -/
def subscribe (b : SubscribeBody) (now : Nat) (u : User) : User :=
  let old := subOf u
  let plan := b.plan.getD "basic"
  let trialEndsAt := b.trialEndsAt <|> old.trialEndsAt
  let status :=
    match trialEndsAt with
    | some t => if now < t then "trialing" else "active"
    | none => "active"
  { u with subscription := some {
      plan := some plan, status := some status, trialEndsAt := trialEndsAt
      currentPeriodStart := b.currentPeriodStart <|> old.currentPeriodStart
      currentPeriodEnd := b.currentPeriodEnd <|> old.currentPeriodEnd
      graceUntil := none, cancelAtPeriodEnd := false, cancelAt := none
      canceledAt := none } }

/-- Embeds `subscriptionController.cancel`: nothing to cancel when the
status is absent or `none`; `immediate` downgrades to `free`/`none` and sets
the 7-day `graceUntil`; otherwise only the period-end cancellation markers
are set. -/
def cancel (immediate : Bool) (now : Nat) (u : User) : User :=
  let s := subOf u
  if s.status = none ∨ s.status = some "none" then u
  else if immediate then
    let s1 := { s with
      plan := some "free"
      status := some "none"
      canceledAt := some now
      cancelAtPeriodEnd := false
      cancelAt := none
      graceUntil := some (now + graceMs) }
    { u with subscription := some s1 }
  else
    let s1 := { s with cancelAtPeriodEnd := true, cancelAt := s.currentPeriodEnd }
    { u with subscription := some s1 }

/-- Embeds `userSchema.methods.refreshSubscriptionStatus` (passive expiry):
an elapsed trial or an elapsed billing period downgrades the plan to `free`,
reverts the status to `none` and sets the 7-day grace window. -/
def refreshSubscriptionStatus (now : Nat) (u : User) : User :=
  let s := subOf u
  if s.status = none ∨ s.status = some "none" then u
  else
    let trialExpired : Bool :=
      s.status == some "trialing" &&
        match s.trialEndsAt with
        | some t => decide (t ≤ now)
        | none => false
    let s1 :=
      if trialExpired then
        { s with
          plan := some "free"
          status := some "none"
          graceUntil := some (now + graceMs) }
      else s
    let periodExpired : Bool :=
      s1.status == some "active" &&
        match s1.currentPeriodEnd with
        | some t => decide (t ≤ now)
        | none => false
    let s2 :=
      if periodExpired then
        { s1 with
          plan := some "free"
          status := some "none"
          graceUntil := some (now + graceMs) }
      else s1
    if trialExpired || periodExpired then { u with subscription := some s2 } else u

/-- Embeds the effect of `refreshExpiredSubscriptions` (the bulk
`updateMany`) on a single user document: if the trial or the billing period
has elapsed, set plan `free`, status `none` and the 7-day grace window. -/
def refreshExpiredSubscriptionsUser (now : Nat) (u : User) : User :=
  let s := subOf u
  let matched : Bool :=
    (s.status == some "trialing" &&
      match s.trialEndsAt with
      | some t => decide (t ≤ now)
      | none => false) ||
    (s.status == some "active" &&
      match s.currentPeriodEnd with
      | some t => decide (t ≤ now)
      | none => false)
  if matched then
    let s1 := { s with
      plan := some "free"
      status := some "none"
      graceUntil := some (now + graceMs) }
    { u with subscription := some s1 }
  else u


/-- The subscription-mutating operations of the system, as invoked by the
subscription routes, the cron refresh and the sweep. -/
inductive SubOp
  | subscribeOp (b : SubscribeBody) (now : Nat)
  | cancelOp (immediate : Bool) (now : Nat)
  | refreshOp (now : Nat)
  | bulkRefreshOp (now : Nat)
  | sweepClearOp

/-- Interpretation of one subscription-mutating operation on a user. -/
def applySubOp (op : SubOp) (u : User) : User :=
  match op with
  | .subscribeOp b now => subscribe b now u
  | .cancelOp imm now => cancel imm now u
  | .refreshOp now => refreshSubscriptionStatus now u
  | .bulkRefreshOp now => refreshExpiredSubscriptionsUser now u
  | .sweepClearOp => clearGrace u

/-- Decidable form of the grace/plan invariant: whenever `graceUntil` is
set, the plan is the limited default plan `free`. -/
def graceImpliesFree (u : User) : Bool :=
  !(subOf u).graceUntil.isSome || ((subOf u).plan == some "free")

/-- A fresh account's subscription per the `User` schema defaults:
plan `free`, status `none`, no grace window. -/
def initUser (id : Nat) (role : String) : User :=
  ⟨id, role, some { emptySubscription with plan := some "free", status := some "none" }⟩

/-! Concrete sample data used by the closed witness and counterexample
theorems below. -/

/-- Sample registry giving every plan a `postLimit` of 5 (the free plan's
default). -/
def plans5 : String → PlanConfig := fun n => ⟨n, some 5⟩

/-- Sample registry whose plans carry the negative "unlimited" sentinel. -/
def plansNeg : String → PlanConfig := fun n => ⟨n, some (-1)⟩

/-- Sample registry resolving purely against the file plan table (a
deployment without DB plan documents). -/
def plansFile : String → PlanConfig := fun n => (filePlans n).getD (getPlanConfig none)

/-- Sample agent on an active `enterprise` subscription (file `postLimit`
-1, commented "unlimited" in the plan table), holding no grace window. -/
def agent1enterprise : User :=
  ⟨1, "agent", some { emptySubscription with plan := some "enterprise", status := some "active" }⟩

/-- Sample registry whose plans carry no `postLimit` at all. -/
def plansNone : String → PlanConfig := fun n => ⟨n, none⟩

/-- Sample listing of agent 1 with id `i`, creation time `t` and one
Cloudinary image. -/
def mkListing (i t : Nat) : Listing :=
  ⟨i, 1, "active", t, [⟨"url", some (toString i)⟩], []⟩

/-- Sample agent without a subscription document (defaults to the free
plan, no grace). -/
def agent1 : User := ⟨1, "agent", none⟩

/-- Sample agent on the free plan inside a grace window ending at 100. -/
def agent1grace : User :=
  ⟨1, "agent", some { emptySubscription with plan := some "free", graceUntil := some 100 }⟩

/-- Five sample listings of agent 1 with distinct creation times. -/
def props5 : List Listing :=
  [mkListing 1 10, mkListing 2 20, mkListing 3 30, mkListing 4 40, mkListing 5 50]

/-- Sample agent with an active paid subscription and no grace window. -/
def agent1pro : User :=
  ⟨1, "agent", some { emptySubscription with plan := some "pro", status := some "active" }⟩

/-- C1: for a non-admin account outside a grace window whose resolved plan
limit is non-negative (not the unlimited sentinel), `canCreateProperty`
allows creation iff the current non-deleted count is below the limit; a
disallow carries reason `post_limit_reached` with the numeric count and
limit and the Creation Gate answers 403 with the same fields; re-evaluating
right after a successful creation reports `current` incremented by exactly
one. -/
theorem canCreateProperty_limit_spec
    (plans : String → PlanConfig) (props : List Listing) (now : Nat) (u : User)
    (newProp : Listing)
    (hrole : u.role ≠ "admin") (hgrace : isInGrace u now = false)
    (_hL : 0 ≤ (getUserPlanAsync plans u).postLimit.getD 0)
    (hagent : newProp.agent = u.id) (hstatus : newProp.status ≠ "deleted") :
    ((canCreateProperty plans props now u).allowed = true ↔
      ((countPropertiesForAgent props u.id : Int) <
        (getUserPlanAsync plans u).postLimit.getD 0)) ∧
    (¬ ((countPropertiesForAgent props u.id : Int) <
        (getUserPlanAsync plans u).postLimit.getD 0) →
      canCreateProperty plans props now u =
        { allowed := false, reason := some "post_limit_reached"
          current := some (countPropertiesForAgent props u.id)
          limit := some ((getUserPlanAsync plans u).postLimit.getD 0)
          inGrace := some false } ∧
      enforcePostLimit (some u)
          (fun v => .ok (canCreateProperty plans props now v)) =
        .rejected "Property creation limit reached for your plan"
          "post_limit_reached" (some (countPropertiesForAgent props u.id))
          (some ((getUserPlanAsync plans u).postLimit.getD 0))) ∧
    (canCreateProperty plans (newProp :: props) now u).current =
      some (countPropertiesForAgent props u.id + 1) := by
  have hcount : countPropertiesForAgent (newProp :: props) u.id =
      countPropertiesForAgent props u.id + 1 := by
    simp [countPropertiesForAgent, activeFor, List.filter_cons, hagent, hstatus]
  constructor
  · simp only [canCreateProperty, if_neg hrole, hgrace]
    by_cases h : ((countPropertiesForAgent props u.id : Int) ≥
        (getUserPlanAsync plans u).postLimit.getD 0)
    · simp [h, not_lt.mpr h]
    · simp [h, lt_of_not_ge h]
  constructor
  · intro h
    have h2 : ((countPropertiesForAgent props u.id : Int) ≥
        (getUserPlanAsync plans u).postLimit.getD 0) := not_lt.mp h
    constructor
    · simp [canCreateProperty, if_neg hrole, hgrace, h2]
    · simp [enforcePostLimit, canCreateProperty, if_neg hrole, hgrace, h2]
  · simp only [canCreateProperty, if_neg hrole, hcount]
    by_cases h : ((countPropertiesForAgent props u.id + 1 : Int) ≥
        (getUserPlanAsync plans u).postLimit.getD 0) <;>
      cases hg : isInGrace u now <;> simp [h, hg]

/-- Witness for C1: agent 1 with five listings against limit 5 is rejected
with count 5 and limit 5, and a sixth listing would report count 6. -/
theorem canCreateProperty_limit_spec_witness :
    agent1.role ≠ "admin" ∧
    (((canCreateProperty plans5 props5 0 agent1).allowed = true ↔
      ((countPropertiesForAgent props5 agent1.id : Int) <
        (getUserPlanAsync plans5 agent1).postLimit.getD 0)) ∧
    (¬ ((countPropertiesForAgent props5 agent1.id : Int) <
        (getUserPlanAsync plans5 agent1).postLimit.getD 0) →
      canCreateProperty plans5 props5 0 agent1 =
        { allowed := false, reason := some "post_limit_reached"
          current := some (countPropertiesForAgent props5 agent1.id)
          limit := some ((getUserPlanAsync plans5 agent1).postLimit.getD 0)
          inGrace := some false } ∧
      enforcePostLimit (some agent1)
          (fun v => .ok (canCreateProperty plans5 props5 0 v)) =
        .rejected "Property creation limit reached for your plan"
          "post_limit_reached" (some (countPropertiesForAgent props5 agent1.id))
          (some ((getUserPlanAsync plans5 agent1).postLimit.getD 0))) ∧
    (canCreateProperty plans5 (mkListing 6 60 :: props5) 0 agent1).current =
      some (countPropertiesForAgent props5 agent1.id + 1)) :=
  ⟨by decide,
   canCreateProperty_limit_spec plans5 props5 0 agent1 (mkListing 6 60)
     (by decide) (by decide) (by decide) (by decide) (by decide)⟩

/-- Counterexample for C3: an enterprise subscriber resolved against the
real file plan table (`postLimit: -1`, commented "unlimited"), outside
grace and holding zero listings, is rejected, not allowed — the evaluator
has no sentinel short-circuit. -/
theorem canCreateProperty_negative_sentinel_cex :
    (canCreateProperty plansFile [] 0 agent1enterprise).allowed = false := by decide

/-- C3 (amended): a negative `postLimit` is not an unlimited sentinel — for
a non-admin account it behaves as an unreachable limit: outside grace every
creation attempt is rejected with `post_limit_reached` regardless of the
current count, while inside grace creation is allowed (as for any grace
account). -/
theorem canCreateProperty_negative_limit
    (plans : String → PlanConfig) (props : List Listing) (now : Nat) (u : User)
    (hrole : u.role ≠ "admin")
    (hneg : (getUserPlanAsync plans u).postLimit.getD 0 < 0) :
    (isInGrace u now = false →
      canCreateProperty plans props now u =
        { allowed := false, reason := some "post_limit_reached"
          current := some (countPropertiesForAgent props u.id)
          limit := some ((getUserPlanAsync plans u).postLimit.getD 0)
          inGrace := some false }) ∧
    (isInGrace u now = true →
      (canCreateProperty plans props now u).allowed = true) := by
  have hge : ((countPropertiesForAgent props u.id : Int) ≥
      (getUserPlanAsync plans u).postLimit.getD 0) :=
    le_trans (le_of_lt hneg) (Int.ofNat_nonneg _)
  constructor
  · intro hgrace
    simp [canCreateProperty, if_neg hrole, hgrace, hge]
  · intro hgrace
    simp [canCreateProperty, if_neg hrole, hgrace]

/-- Witness for the amended C3: agent 1 with the sentinel registry and no
grace is rejected on an empty store. -/
theorem canCreateProperty_negative_limit_witness :
    agent1.role ≠ "admin" ∧
    ((isInGrace agent1 0 = false →
      canCreateProperty plansNeg [] 0 agent1 =
        { allowed := false, reason := some "post_limit_reached"
          current := some (countPropertiesForAgent [] agent1.id)
          limit := some ((getUserPlanAsync plansNeg agent1).postLimit.getD 0)
          inGrace := some false }) ∧
    (isInGrace agent1 0 = true →
      (canCreateProperty plansNeg [] 0 agent1).allowed = true)) :=
  ⟨by decide,
   canCreateProperty_negative_limit plansNeg [] 0 agent1 (by decide) (by decide)⟩

/-- C10: when the resolved plan configuration has no `postLimit`
(`undefined`/`null`) or a zero one, `canCreateProperty` fails closed to an
effective limit of 0 and rejects every non-admin, non-grace attempt with
`post_limit_reached`, whatever the current count. -/
theorem canCreateProperty_missing_limit
    (plans : String → PlanConfig) (props : List Listing) (now : Nat) (u : User)
    (hrole : u.role ≠ "admin") (hgrace : isInGrace u now = false)
    (hmiss : (getUserPlanAsync plans u).postLimit = none ∨
      (getUserPlanAsync plans u).postLimit = some 0) :
    canCreateProperty plans props now u =
      { allowed := false, reason := some "post_limit_reached"
        current := some (countPropertiesForAgent props u.id)
        limit := some 0, inGrace := some false } := by
  have hzero : (getUserPlanAsync plans u).postLimit.getD 0 = 0 := by
    rcases hmiss with h | h <;> simp [h]
  have hge : ((countPropertiesForAgent props u.id : Int) ≥
      (getUserPlanAsync plans u).postLimit.getD 0) := by
    rw [hzero]; exact Int.ofNat_nonneg _
  simp [canCreateProperty, if_neg hrole, hgrace, hge, hzero]

/-- Witness for C10: agent 1 under a registry with absent `postLimit` is
rejected with limit 0 even though it holds five listings. -/
theorem canCreateProperty_missing_limit_witness :
    agent1.role ≠ "admin" ∧
    canCreateProperty plansNone props5 0 agent1 =
      { allowed := false, reason := some "post_limit_reached"
        current := some (countPropertiesForAgent props5 agent1.id)
        limit := some 0, inGrace := some false } :=
  ⟨by decide,
   canCreateProperty_missing_limit plansNone props5 0 agent1
     (by decide) (by decide) (Or.inl (by decide))⟩

/-- Counterexample for C9: when the quota re-evaluation throws at the
post-creation reconciliation, the creation request still answers 201 with
the created listing — it does not fail with a hard error. -/
theorem createProperty_reconciler_error_cex :
    (createProperty plans5 50 agent1grace (mkListing 6 60) true
        ⟨props5, ["6"]⟩).2 = .created (mkListing 6 60) := by decide

/-- C9 (amended): a quota evaluation failure at the pre-creation gate is a
hard 500 failure of the request, but a failure at the post-creation
reconciliation is caught and the creation still answers success with the
persisted listing. -/
theorem creation_store_failure
    (e : String) (plans : String → PlanConfig) (now : Nat) (u : User)
    (newProp : Listing) (st : Store) :
    enforcePostLimit (some u) (fun _ => .error e) = .serverError ∧
    createProperty plans now u newProp true st =
      ({ st with props := newProp :: st.props }, .created newProp) :=
  ⟨rfl, rfl⟩

/-- C2: for an account in a grace window, the post-creation reconciler rolls
the creation back (restoring the property store and deleting the new
listing's Cloudinary media, answering a rejection carrying the pre-creation
count) iff the updated count exceeds the plan limit; after a rollback the
active count equals its pre-creation value, and when the pre-creation count
is below the limit the creation is accepted untouched. -/
theorem createProperty_grace_reconciler
    (plans : String → PlanConfig) (props : List Listing) (cloud : List String)
    (now : Nat) (u : User) (newProp : Listing)
    (hrole : u.role ≠ "admin") (hgrace : isInGrace u now = true)
    (hagent : newProp.agent = u.id) (hstatus : newProp.status ≠ "deleted")
    (hfresh : ∀ p ∈ props, p.id ≠ newProp.id) :
    ((createProperty plans now u newProp false ⟨props, cloud⟩).2 =
        .graceRejected (countPropertiesForAgent props u.id : Int)
          ((getUserPlanAsync plans u).postLimit.getD 0) ↔
      ((countPropertiesForAgent props u.id : Int) + 1 >
        (getUserPlanAsync plans u).postLimit.getD 0)) ∧
    (((countPropertiesForAgent props u.id : Int) + 1 >
        (getUserPlanAsync plans u).postLimit.getD 0) →
      (createProperty plans now u newProp false ⟨props, cloud⟩).1 =
        ⟨props, cloudCleanupFor newProp cloud⟩ ∧
      countPropertiesForAgent
        (createProperty plans now u newProp false ⟨props, cloud⟩).1.props u.id =
        countPropertiesForAgent props u.id) ∧
    (((countPropertiesForAgent props u.id : Int) <
        (getUserPlanAsync plans u).postLimit.getD 0) →
      createProperty plans now u newProp false ⟨props, cloud⟩ =
        (⟨newProp :: props, cloud⟩, .created newProp)) := by
  have hcount : countPropertiesForAgent (newProp :: props) u.id =
      countPropertiesForAgent props u.id + 1 := by
    simp [countPropertiesForAgent, activeFor, List.filter_cons, hagent, hstatus]
  have hcheck : canCreateProperty plans (newProp :: props) now u =
      { allowed := true, current := some (countPropertiesForAgent props u.id + 1)
        limit := some ((getUserPlanAsync plans u).postLimit.getD 0)
        inGrace := some true } := by
    simp [canCreateProperty, if_neg hrole, hgrace, hcount]
  have hprops1 : (newProp :: props).filter (fun p => decide (p.id ≠ newProp.id)) = props := by
    rw [List.filter_cons]
    rw [if_neg (by simp)]
    exact List.filter_eq_self.mpr (fun p hp => by simpa using hfresh p hp)
  by_cases hover : ((countPropertiesForAgent props u.id : Int) + 1 >
      (getUserPlanAsync plans u).postLimit.getD 0)
  · have hcond : ((countPropertiesForAgent props u.id + 1 : Nat) : Int) >
        (getUserPlanAsync plans u).postLimit.getD 0 := by push_cast; omega
    have hrun : createProperty plans now u newProp false ⟨props, cloud⟩ =
        (⟨props, cloudCleanupFor newProp cloud⟩,
          .graceRejected (countPropertiesForAgent props u.id : Int)
            ((getUserPlanAsync plans u).postLimit.getD 0)) := by
      simp only [createProperty, Bool.false_eq_true, if_false, hcheck, if_pos hcond]
      rw [hprops1]
      congr 1
      congr 1
      push_cast
      omega
    refine ⟨?_, fun _ => ?_, fun hlt => ?_⟩
    · simp [hrun, hover]
    · simp [hrun]
    · omega
  · have hcond : ¬ (((countPropertiesForAgent props u.id + 1 : Nat) : Int) >
        (getUserPlanAsync plans u).postLimit.getD 0) := by push_cast; omega
    have hrun : createProperty plans now u newProp false ⟨props, cloud⟩ =
        (⟨newProp :: props, cloud⟩, .created newProp) := by
      simp only [createProperty, Bool.false_eq_true, if_false, hcheck, if_neg hcond]
    refine ⟨?_, fun h => absurd h hover, fun _ => hrun⟩
    simp [hrun, hover]

/-- Witness for C2: the grace account with five listings against limit 5
creating a sixth gets it rolled back, with the count restored to 5. -/
theorem createProperty_grace_reconciler_witness :
    isInGrace agent1grace 50 = true ∧
    (((createProperty plans5 50 agent1grace (mkListing 6 60) false
          ⟨props5, ["6"]⟩).2 =
        .graceRejected (countPropertiesForAgent props5 agent1grace.id : Int)
          ((getUserPlanAsync plans5 agent1grace).postLimit.getD 0) ↔
      ((countPropertiesForAgent props5 agent1grace.id : Int) + 1 >
        (getUserPlanAsync plans5 agent1grace).postLimit.getD 0)) ∧
    (((countPropertiesForAgent props5 agent1grace.id : Int) + 1 >
        (getUserPlanAsync plans5 agent1grace).postLimit.getD 0) →
      (createProperty plans5 50 agent1grace (mkListing 6 60) false
          ⟨props5, ["6"]⟩).1 =
        ⟨props5, cloudCleanupFor (mkListing 6 60) ["6"]⟩ ∧
      countPropertiesForAgent
        (createProperty plans5 50 agent1grace (mkListing 6 60) false
            ⟨props5, ["6"]⟩).1.props agent1grace.id =
        countPropertiesForAgent props5 agent1grace.id) ∧
    (((countPropertiesForAgent props5 agent1grace.id : Int) <
        (getUserPlanAsync plans5 agent1grace).postLimit.getD 0) →
      createProperty plans5 50 agent1grace (mkListing 6 60) false
          ⟨props5, ["6"]⟩ =
        (⟨mkListing 6 60 :: props5, ["6"]⟩, .created (mkListing 6 60)))) :=
  ⟨by decide,
   createProperty_grace_reconciler plans5 props5 ["6"] 50 agent1grace
     (mkListing 6 60) (by decide) (by decide) (by decide) (by decide)
     (by decide)⟩

/-- Counterexample for C6: immediate cancellation of an active paid
subscription also sets `graceUntil` (to now + 7 days) — passive expiry is
not the only operation assigning it a value. -/
theorem cancel_sets_graceUntil_cex :
    (subOf agent1pro).graceUntil = none ∧
    (subOf (cancel true 0 agent1pro)).graceUntil = some graceMs := by decide

/-- C6 (amended): the operations that can set `graceUntil` to a non-null
value are the passive expiry transitions and immediate cancellation;
`subscribe` always leaves it null, non-immediate cancellation leaves it
unchanged, and the sweep's clearing yields null. -/
theorem graceUntil_setters (b : SubscribeBody) (now : Nat) (u : User) :
    (subOf (subscribe b now u)).graceUntil = none ∧
    (subOf (cancel false now u)).graceUntil = (subOf u).graceUntil ∧
    (subOf (clearGrace u)).graceUntil = none ∧
    ((subOf (cancel true now u)).graceUntil = (subOf u).graceUntil ∨
      (subOf (cancel true now u)).graceUntil = some (now + graceMs)) ∧
    ((subOf (refreshSubscriptionStatus now u)).graceUntil = (subOf u).graceUntil ∨
      (subOf (refreshSubscriptionStatus now u)).graceUntil = some (now + graceMs)) ∧
    ((subOf (refreshExpiredSubscriptionsUser now u)).graceUntil =
        (subOf u).graceUntil ∨
      (subOf (refreshExpiredSubscriptionsUser now u)).graceUntil =
        some (now + graceMs)) := by
  refine ⟨?_, ?_, ?_, ?_, ?_, ?_⟩
  · simp [subscribe, subOf]
  · simp only [cancel]
    split
    · rfl
    · simp [subOf]
  · unfold clearGrace
    cases h : u.subscription with
    | none => simp [subOf, h, emptySubscription]
    | some s =>
      by_cases hg : s.graceUntil.isSome
      · simp [subOf, hg]
      · simp only [hg, if_false]
        simp [subOf, h, Option.not_isSome_iff_eq_none.mp hg]
  · simp only [cancel]
    split
    · exact Or.inl rfl
    · simp [subOf]
  · simp only [refreshSubscriptionStatus]
    split_ifs <;> simp [subOf]
  · simp only [refreshExpiredSubscriptionsUser]
    split_ifs <;> simp [subOf]

/-- Selection is disabled once the sweep clears the grace window: a user the
sweep selected no longer matches the selection query afterwards. -/
theorem sweepSelects_clearGrace (now : Nat) (u : User)
    (h : sweepSelects now u = true) : sweepSelects now (clearGrace u) = false := by
  cases hs : u.subscription with
  | none =>
    rw [sweepSelects] at h
    simp [subOf, hs, emptySubscription] at h
  | some s =>
    cases hg : s.graceUntil with
    | none =>
      rw [sweepSelects] at h
      simp [subOf, hs, hg] at h
    | some g =>
      simp [clearGrace, hs, hg, sweepSelects, subOf]

/-- A sweep run over a state whose users match nothing removes nothing and
leaves the property store unchanged. -/
theorem runGraceCleanup_no_selection (limit : Int) (now : Nat) (st : SweepState)
    (h : st.users.filter (sweepSelects now) = []) :
    (runGraceCleanup limit now st).2.removed = 0 ∧
    (runGraceCleanup limit now st).1.props = st.props := by
  constructor <;> simp [runGraceCleanup, h]

/-- C5: the Grace Sweep is idempotent — running it twice in immediate
succession deletes nothing the second time and leaves the property store as
the first run left it, because the first run cleared every selected user's
`graceUntil`, so no user matches the selection filter any more. -/
theorem runGraceCleanup_idempotent (limit : Int) (now : Nat) (st : SweepState) :
    (runGraceCleanup limit now (runGraceCleanup limit now st).1).2.removed = 0 ∧
    (runGraceCleanup limit now (runGraceCleanup limit now st).1).1.props =
      (runGraceCleanup limit now st).1.props := by
  have husers : (runGraceCleanup limit now st).1.users =
      st.users.map (fun u => if sweepSelects now u then clearGrace u else u) := rfl
  have hsel : ((runGraceCleanup limit now st).1.users).filter (sweepSelects now) = [] := by
    rw [husers, List.filter_map]
    have : st.users.filter ((sweepSelects now) ∘
        (fun u => if sweepSelects now u then clearGrace u else u)) = [] := by
      rw [List.filter_eq_nil_iff]
      intro u _
      by_cases h : sweepSelects now u = true
      · simp only [Function.comp_apply, if_pos h]
        simp [sweepSelects_clearGrace now u h]
      · simp only [Function.comp_apply, if_neg h]
        simpa using h
    rw [this]
    rfl
  exact runGraceCleanup_no_selection limit now _ hsel

/-- C8: a per-account failure inside the sweep loop is isolated — with a
failure oracle marking one user of the batch as throwing, the sweep's
stores and removal count are exactly those of the run without that user
(every remaining account is still processed), and `handled` still counts
the whole selected batch. -/
theorem runGraceCleanupF_failure_isolated
    (limit : Int) (now : Nat) (fails : Nat → Bool) (pre post : List User)
    (u : User) (props : List Listing) (cloud : List String)
    (hfail : fails u.id = true) :
    (runGraceCleanupF limit now fails ⟨pre ++ u :: post, props, cloud⟩).1.props =
      (runGraceCleanupF limit now fails ⟨pre ++ post, props, cloud⟩).1.props ∧
    (runGraceCleanupF limit now fails ⟨pre ++ u :: post, props, cloud⟩).1.cloud =
      (runGraceCleanupF limit now fails ⟨pre ++ post, props, cloud⟩).1.cloud ∧
    (runGraceCleanupF limit now fails ⟨pre ++ u :: post, props, cloud⟩).2.removed =
      (runGraceCleanupF limit now fails ⟨pre ++ post, props, cloud⟩).2.removed ∧
    (runGraceCleanupF limit now fails ⟨pre ++ u :: post, props, cloud⟩).2.handled =
      ((pre ++ u :: post).filter (sweepSelects now)).length := by
  have hstep : ∀ acc, sweepStepF limit fails acc u = acc := by
    intro acc
    simp [sweepStepF, hfail]
  have hacc : ((pre ++ u :: post).filter (sweepSelects now)).foldl
      (sweepStepF limit fails) ⟨props, cloud, 0⟩ =
      ((pre ++ post).filter (sweepSelects now)).foldl
      (sweepStepF limit fails) ⟨props, cloud, 0⟩ := by
    rw [List.filter_append, List.filter_append, List.filter_cons]
    by_cases h : sweepSelects now u = true
    · rw [if_pos h, List.foldl_append, List.foldl_append, List.foldl_cons, hstep]
    · rw [if_neg (by simpa using h)]
  refine ⟨?_, ?_, ?_, rfl⟩ <;>
    · simp only [runGraceCleanupF]
      rw [hacc]

/-- Witness for C8: the grace account failing mid-sweep leaves the stores as
a run without it, and the singleton batch still counts as handled. -/
theorem runGraceCleanupF_failure_isolated_witness :
    (fun i => i == 1) agent1grace.id = true ∧
    ((runGraceCleanupF 5 200 (fun i => i == 1)
        ⟨[] ++ agent1grace :: [], props5, ["1"]⟩).1.props =
      (runGraceCleanupF 5 200 (fun i => i == 1) ⟨[] ++ [], props5, ["1"]⟩).1.props ∧
    (runGraceCleanupF 5 200 (fun i => i == 1)
        ⟨[] ++ agent1grace :: [], props5, ["1"]⟩).1.cloud =
      (runGraceCleanupF 5 200 (fun i => i == 1) ⟨[] ++ [], props5, ["1"]⟩).1.cloud ∧
    (runGraceCleanupF 5 200 (fun i => i == 1)
        ⟨[] ++ agent1grace :: [], props5, ["1"]⟩).2.removed =
      (runGraceCleanupF 5 200 (fun i => i == 1) ⟨[] ++ [], props5, ["1"]⟩).2.removed ∧
    (runGraceCleanupF 5 200 (fun i => i == 1)
        ⟨[] ++ agent1grace :: [], props5, ["1"]⟩).2.handled =
      (([] ++ agent1grace :: []).filter (sweepSelects 200)).length) :=
  ⟨by decide,
   runGraceCleanupF_failure_isolated 5 200 (fun i => i == 1) [] []
     agent1grace props5 ["1"] (by decide)⟩

/-- Every subscription-mutating operation preserves the grace/plan
invariant. -/
theorem applySubOp_preserves_graceImpliesFree (op : SubOp) (u : User)
    (h : graceImpliesFree u = true) : graceImpliesFree (applySubOp op u) = true := by
  cases op with
  | subscribeOp b now => simp [applySubOp, subscribe, graceImpliesFree, subOf]
  | cancelOp imm now =>
    simp only [applySubOp, cancel]
    split
    · exact h
    · split
      · simp [graceImpliesFree, subOf]
      · simpa [graceImpliesFree, subOf] using h
  | refreshOp now =>
    simp only [applySubOp, refreshSubscriptionStatus]
    split_ifs <;> simp_all [graceImpliesFree, subOf]
  | bulkRefreshOp now =>
    simp only [applySubOp, refreshExpiredSubscriptionsUser]
    split_ifs <;> simp_all [graceImpliesFree, subOf]
  | sweepClearOp =>
    simp only [applySubOp]
    unfold clearGrace
    cases hs : u.subscription with
    | none => simpa using h
    | some s =>
      by_cases hg : s.graceUntil.isSome = true
      · simp [subOf, hg, graceImpliesFree]
      · show graceImpliesFree (if s.graceUntil.isSome = true then _ else u) = true
        rw [if_neg hg]
        exact h

/-- C7: starting from the schema's default subscription (plan `free`,
status `none`, no grace), every sequence of subscription-mutating
operations (subscribe, cancel, passive expiry refresh, bulk expiry refresh,
sweep clearing) keeps the invariant that a set `graceUntil` is accompanied
by the limited default plan `free` — no reachable state pairs a grace
window with a paid plan. -/
theorem subscription_grace_invariant (id : Nat) (role : String) (ops : List SubOp) :
    graceImpliesFree
      (ops.foldl (fun u op => applySubOp op u) (initUser id role)) = true := by
  have hinit : graceImpliesFree (initUser id role) = true := rfl
  suffices h : ∀ (u : User), graceImpliesFree u = true →
      graceImpliesFree (ops.foldl (fun u op => applySubOp op u) u) = true by
    exact h _ hinit
  induction ops with
  | nil => intro u hu; exact hu
  | cons op rest ih =>
    intro u hu
    exact ih _ (applySubOp_preserves_graceImpliesFree op u hu)

/-- Unfolding of the sweep loop body when the user is within the limit:
nothing is deleted. -/
theorem sweepStep_le_eq (limit : Int) (u : User) (props : List Listing)
    (cloud : List String) (r : Nat)
    (h : ((activeFor u.id props).length : Int) ≤ limit) :
    sweepStep limit ⟨props, cloud, r⟩ u = ⟨props, cloud, r⟩ := by
  simp only [sweepStep]
  rw [if_pos (by simpa using h)]

/-- Unfolding of the sweep loop body when the user is over the limit: the
`count - limit` newest live properties are selected, their media cleaned and
their records deleted by id. -/
theorem sweepStep_over_eq (limit : Int) (u : User) (props : List Listing)
    (cloud : List String) (r : Nat)
    (h : ¬ (((activeFor u.id props).length : Int) ≤ limit)) :
    sweepStep limit ⟨props, cloud, r⟩ u =
      ⟨props.filter (fun p => !((((sortByNewest (activeFor u.id props)).take
            ((((activeFor u.id props).length : Int) - limit).toNat)).any
            (fun e => e.id == p.id)))),
        ((sortByNewest (activeFor u.id props)).take
            ((((activeFor u.id props).length : Int) - limit).toNat)).foldl
          (fun c p => cloudCleanupFor p c) cloud,
        r + ((sortByNewest (activeFor u.id props)).take
            ((((activeFor u.id props).length : Int) - limit).toNat)).length⟩ := by
  simp only [sweepStep]
  rw [if_neg (by simpa using h)]

/-- Core correctness of trimming by deleting the first `t` entries of the
newest-first sort: exactly `t` records go, only the user's live records go,
every removed record is strictly newer than every kept one, and the user's
live count drops by `t`. -/
theorem trim_filter_spec (props : List Listing) (userId : Nat) (t : Nat)
    (extras rest : List Listing)
    (hnodup : (props.map (fun p => p.id)).Nodup)
    (hdistinct : (activeFor userId props).Pairwise fun a b => a.createdAt ≠ b.createdAt)
    (ht : t ≤ (activeFor userId props).length)
    (hex : extras = (sortByNewest (activeFor userId props)).take t)
    (hrest : rest = props.filter (fun p => !(extras.any (fun e => e.id == p.id)))) :
    extras.length = t ∧
    (activeFor userId rest).length = (activeFor userId props).length - t ∧
    (∀ p ∈ props, p.agent ≠ userId → p ∈ rest) ∧
    (∀ p ∈ props, p ∉ rest → p.agent = userId ∧ p.status ≠ "deleted") ∧
    (∀ p ∈ activeFor userId props, p ∉ rest →
      ∀ q ∈ activeFor userId props, q ∈ rest → q.createdAt < p.createdAt) := by
  have hperm : (sortByNewest (activeFor userId props)).Perm (activeFor userId props) :=
    List.perm_insertionSort _ _
  have hsortlen : (sortByNewest (activeFor userId props)).length =
      (activeFor userId props).length := hperm.length_eq
  have hmine_mem : ∀ p ∈ activeFor userId props,
      p ∈ props ∧ p.agent = userId ∧ p.status ≠ "deleted" := by
    intro p hp
    rw [activeFor, List.mem_filter] at hp
    have h2 := hp.2
    simp only [Bool.and_eq_true, beq_iff_eq, bne_iff_ne, ne_eq] at h2
    exact ⟨hp.1, h2.1, h2.2⟩
  have hex_sub : ∀ e ∈ extras, e ∈ activeFor userId props := by
    intro e he
    rw [hex] at he
    exact hperm.subset (List.take_subset _ _ he)
  have hinj : ∀ a ∈ props, ∀ b ∈ props, a.id = b.id → a = b :=
    fun a ha b hb hab => List.inj_on_of_nodup_map hnodup ha hb hab
  have hrest_mem : ∀ p, p ∈ rest ↔ p ∈ props ∧
      (extras.any (fun e => e.id == p.id)) = false := by
    intro p
    rw [hrest, List.mem_filter]
    constructor
    · rintro ⟨h1, h2⟩
      exact ⟨h1, by simpa using h2⟩
    · rintro ⟨h1, h2⟩
      exact ⟨h1, by simpa using h2⟩
  have hex_not_rest : ∀ e ∈ extras, e ∉ rest := by
    intro e he hr
    rcases (hrest_mem e).mp hr with ⟨-, hany⟩
    have htrue : extras.any (fun x => x.id == e.id) = true :=
      List.any_eq_true.mpr ⟨e, he, by simp⟩
    rw [htrue] at hany
    cases hany
  have hdel_ex : ∀ p ∈ props, p ∉ rest → p ∈ extras := by
    intro p hp hnr
    by_contra hne
    apply hnr
    rw [hrest_mem]
    refine ⟨hp, ?_⟩
    rw [List.any_eq_false]
    intro e he
    simp only [beq_iff_eq]
    intro heq
    exact hne (hinj e (hmine_mem e (hex_sub e he)).1 p hp heq ▸ he)
  have hsplit : sortByNewest (activeFor userId props) =
      extras ++ (sortByNewest (activeFor userId props)).drop t := by
    rw [hex, List.take_append_drop]
  have hmine_ids : ((activeFor userId props).map (fun p => p.id)).Nodup :=
    List.Nodup.sublist (List.Sublist.map _ (List.filter_sublist props)) hnodup
  have hsorted_ids : ((sortByNewest (activeFor userId props)).map (fun p => p.id)).Nodup :=
    ((hperm.map _).nodup_iff).mpr hmine_ids
  have hdisj : ∀ e ∈ extras, ∀ d ∈ (sortByNewest (activeFor userId props)).drop t,
      e.id ≠ d.id := by
    intro e he d hd heq
    have hn : ((extras ++ (sortByNewest (activeFor userId props)).drop t).map
        (fun p => p.id)).Nodup := by
      rw [← hsplit]
      exact hsorted_ids
    rw [List.map_append] at hn
    exact List.disjoint_of_nodup_append hn (List.mem_map_of_mem _ he)
      (heq ▸ List.mem_map_of_mem _ hd)
  have hcross_le : ∀ p ∈ extras, ∀ q ∈ (sortByNewest (activeFor userId props)).drop t,
      q.createdAt ≤ p.createdAt := by
    have hs : List.Sorted newerFirst (sortByNewest (activeFor userId props)) :=
      List.sorted_insertionSort _ _
    rw [hsplit] at hs
    exact fun p hp q hq => (List.pairwise_append.mp hs).2.2 p hp q hq
  refine ⟨?_, ?_, ?_, ?_, ?_⟩
  · rw [hex, List.length_take, hsortlen]
    omega
  · have hcomm : activeFor userId rest =
        (activeFor userId props).filter
          (fun p => !(extras.any (fun e => e.id == p.id))) := by
      rw [hrest, activeFor, activeFor, List.filter_filter, List.filter_filter]
      exact List.filter_congr (fun x _ => by rw [Bool.and_comm])
    have hpf : ((activeFor userId props).filter
          (fun p => !(extras.any (fun e => e.id == p.id)))).Perm
        ((sortByNewest (activeFor userId props)).filter
          (fun p => !(extras.any (fun e => e.id == p.id)))) :=
      (List.Perm.filter _ hperm).symm
    have htake_nil : extras.filter
        (fun p => !(extras.any (fun e => e.id == p.id))) = [] := by
      rw [List.filter_eq_nil_iff]
      intro e he
      simp only [Bool.not_eq_true, Bool.not_eq_false']
      refine List.any_eq_true.mpr ⟨e, he, ?_⟩
      exact beq_self_eq_true _
    have hdrop_self : ((sortByNewest (activeFor userId props)).drop t).filter
        (fun p => !(extras.any (fun e => e.id == p.id))) =
        (sortByNewest (activeFor userId props)).drop t := by
      rw [List.filter_eq_self]
      intro d hd
      simp only [Bool.not_eq_true', List.any_eq_false, beq_iff_eq]
      exact fun e he => hdisj e he d hd
    rw [hcomm, hpf.length_eq]
    conv_lhs => rw [hsplit]
    rw [List.filter_append, htake_nil, hdrop_self, List.nil_append,
      List.length_drop, hsortlen]
  · intro p hp hne
    rw [hrest_mem]
    refine ⟨hp, ?_⟩
    rw [List.any_eq_false]
    intro e he
    simp only [beq_iff_eq]
    intro heq
    exact hne ((hinj e (hmine_mem e (hex_sub e he)).1 p hp heq) ▸
      (hmine_mem e (hex_sub e he)).2.1)
  · intro p hp hnr
    exact (hmine_mem p (hex_sub p (hdel_ex p hp hnr))).2
  · intro p hp hnr q hq hqr
    have hpex : p ∈ extras := hdel_ex p (hmine_mem p hp).1 hnr
    have hqnex : q ∉ extras := fun hqe => hex_not_rest q hqe hqr
    have hqs : q ∈ sortByNewest (activeFor userId props) := hperm.mem_iff.mpr hq
    rw [hsplit] at hqs
    rcases List.mem_append.mp hqs with hqe | hqd
    · exact absurd hqe hqnex
    · have hle : q.createdAt ≤ p.createdAt := hcross_le p hpex q hqd
      have hne : p ≠ q := fun h => hqnex (h ▸ hpex)
      have hcd : p.createdAt ≠ q.createdAt :=
        hdistinct.forall (fun _ _ h => h.symm) hp hq hne
      omega

/-- C4: for an account the sweep selects, with distinct creation timestamps
and non-negative resolved limit `L`: when the live count `N` is within `L`
nothing is deleted and `graceUntil` is cleared; when `N > L` the sweep
removes exactly `N - L` records, all of them the user's live properties,
each strictly newer than every kept one (so the `L` oldest survive), the
surviving live count is `L`, other agents' records are untouched, and
`graceUntil` is cleared. -/
theorem graceSweep_trims_newest (limit : Int) (now : Nat) (u : User)
    (props : List Listing) (cloud : List String)
    (hsel : sweepSelects now u = true)
    (hnodup : (props.map (fun p => p.id)).Nodup)
    (hdistinct : (activeFor u.id props).Pairwise fun a b => a.createdAt ≠ b.createdAt)
    (hL : 0 ≤ limit) :
    ((runGraceCleanup limit now ⟨[u], props, cloud⟩).1.users = [clearGrace u] ∧
      (subOf (clearGrace u)).graceUntil = none) ∧
    (((activeFor u.id props).length : Int) ≤ limit →
      (runGraceCleanup limit now ⟨[u], props, cloud⟩).1.props = props ∧
      (runGraceCleanup limit now ⟨[u], props, cloud⟩).2.removed = 0) ∧
    (limit < ((activeFor u.id props).length : Int) →
      (runGraceCleanup limit now ⟨[u], props, cloud⟩).2.removed =
        (activeFor u.id props).length - limit.toNat ∧
      countPropertiesForAgent
        (runGraceCleanup limit now ⟨[u], props, cloud⟩).1.props u.id = limit.toNat ∧
      (∀ p ∈ props, p.agent ≠ u.id →
        p ∈ (runGraceCleanup limit now ⟨[u], props, cloud⟩).1.props) ∧
      (∀ p ∈ props, p ∉ (runGraceCleanup limit now ⟨[u], props, cloud⟩).1.props →
        p.agent = u.id ∧ p.status ≠ "deleted") ∧
      (∀ p ∈ activeFor u.id props,
        p ∉ (runGraceCleanup limit now ⟨[u], props, cloud⟩).1.props →
        ∀ q ∈ activeFor u.id props,
          q ∈ (runGraceCleanup limit now ⟨[u], props, cloud⟩).1.props →
          q.createdAt < p.createdAt)) := by
  have hrun : runGraceCleanup limit now ⟨[u], props, cloud⟩ =
      (⟨[clearGrace u], (sweepStep limit ⟨props, cloud, 0⟩ u).props,
        (sweepStep limit ⟨props, cloud, 0⟩ u).cloud⟩,
       ⟨1, (sweepStep limit ⟨props, cloud, 0⟩ u).removed⟩) := by
    simp [runGraceCleanup, List.filter_cons, hsel]
  have hclear : (subOf (clearGrace u)).graceUntil = none := by
    unfold clearGrace
    cases hs : u.subscription with
    | none => simp [subOf, hs, emptySubscription]
    | some s =>
      by_cases hg : s.graceUntil.isSome = true
      · simp [subOf, hg]
      · show (subOf (if s.graceUntil.isSome = true then _ else u)).graceUntil = none
        rw [if_neg hg]
        simp [subOf, hs, Option.not_isSome_iff_eq_none.mp hg]
  refine ⟨⟨by rw [hrun], hclear⟩, ?_, ?_⟩
  · intro hle
    rw [hrun, sweepStep_le_eq limit u props cloud 0 hle]
    exact ⟨rfl, rfl⟩
  · intro hover
    have hnotle : ¬ (((activeFor u.id props).length : Int) ≤ limit) := not_le.mpr hover
    have hstep := sweepStep_over_eq limit u props cloud 0 hnotle
    have ht : (((activeFor u.id props).length : Int) - limit).toNat ≤
        (activeFor u.id props).length := by omega
    obtain ⟨hlen, hcount, hother, hdel, hcross⟩ :=
      trim_filter_spec props u.id
        ((((activeFor u.id props).length : Int) - limit).toNat)
        ((sortByNewest (activeFor u.id props)).take
          ((((activeFor u.id props).length : Int) - limit).toNat))
        (props.filter (fun p => !((((sortByNewest (activeFor u.id props)).take
          ((((activeFor u.id props).length : Int) - limit).toNat)).any
          (fun e => e.id == p.id)))))
        hnodup hdistinct ht rfl rfl
    rw [hrun]
    refine ⟨?_, ?_, ?_, ?_, ?_⟩
    · show (sweepStep limit ⟨props, cloud, 0⟩ u).removed =
        (activeFor u.id props).length - limit.toNat
      rw [hstep]
      show 0 + ((sortByNewest (activeFor u.id props)).take
        ((((activeFor u.id props).length : Int) - limit).toNat)).length =
        (activeFor u.id props).length - limit.toNat
      rw [hlen]
      omega
    · show countPropertiesForAgent (sweepStep limit ⟨props, cloud, 0⟩ u).props u.id =
        limit.toNat
      rw [hstep]
      show (activeFor u.id (props.filter _)).length = limit.toNat
      rw [hcount]
      omega
    · intro p hp hne
      show p ∈ (sweepStep limit ⟨props, cloud, 0⟩ u).props
      rw [hstep]
      exact hother p hp hne
    · intro p hp hnr
      rw [hstep] at hnr
      exact hdel p hp hnr
    · intro p hp hnr q hq hqr
      rw [hstep] at hnr hqr
      exact hcross p hp hnr q hq hqr

/-- Witness for C4: the grace account with five listings against limit 2
has the three newest deleted and the two oldest kept. -/
theorem graceSweep_trims_newest_witness :
    sweepSelects 200 agent1grace = true ∧
    (    ((runGraceCleanup 2 200 ⟨[agent1grace], props5, ["1"]⟩).1.users = [clearGrace agent1grace] ∧
      (subOf (clearGrace agent1grace)).graceUntil = none) ∧
    (((activeFor agent1grace.id props5).length : Int) ≤ 2 →
      (runGraceCleanup 2 200 ⟨[agent1grace], props5, ["1"]⟩).1.props = props5 ∧
      (runGraceCleanup 2 200 ⟨[agent1grace], props5, ["1"]⟩).2.removed = 0) ∧
    (2 < ((activeFor agent1grace.id props5).length : Int) →
      (runGraceCleanup 2 200 ⟨[agent1grace], props5, ["1"]⟩).2.removed =
        (activeFor agent1grace.id props5).length - (2 : Int).toNat ∧
      countPropertiesForAgent
        (runGraceCleanup 2 200 ⟨[agent1grace], props5, ["1"]⟩).1.props agent1grace.id = (2 : Int).toNat ∧
      (∀ p ∈ props5, p.agent ≠ agent1grace.id →
        p ∈ (runGraceCleanup 2 200 ⟨[agent1grace], props5, ["1"]⟩).1.props) ∧
      (∀ p ∈ props5, p ∉ (runGraceCleanup 2 200 ⟨[agent1grace], props5, ["1"]⟩).1.props →
        p.agent = agent1grace.id ∧ p.status ≠ "deleted") ∧
      (∀ p ∈ activeFor agent1grace.id props5,
        p ∉ (runGraceCleanup 2 200 ⟨[agent1grace], props5, ["1"]⟩).1.props →
        ∀ q ∈ activeFor agent1grace.id props5,
          q ∈ (runGraceCleanup 2 200 ⟨[agent1grace], props5, ["1"]⟩).1.props →
          q.createdAt < p.createdAt))) :=
  ⟨by decide,
   graceSweep_trims_newest 2 200 agent1grace props5 ["1"]
     (by decide) (by decide) (by decide) (by decide)⟩

end RealAgent
